import Mathlib

/- Verification of the pipeline configuration codec and the CRUD
   reconciliation operations of the jenkins pipeline provider.
   Strings are modelled as lists of characters; Go's byte indices coincide
   with character indices here because every delimiter searched for is
   ASCII, and an ASCII byte never occurs inside a multi-byte UTF-8 rune. -/

abbrev Str := List Char

deriving instance DecidableEq for Except

set_option maxRecDepth 100000

/-- Model of Go strings.Index: the index of the first occurrence of sub in s,
none when absent (Go returns -1). -/
def strIndex (s sub : Str) : Option Nat :=
  if sub.isPrefixOf s then some 0
  else
    match s with
    | [] => none
    | _ :: t => (strIndex t sub).map (fun i => i + 1)

/-- Model of Go strings.Contains (strings.Index >= 0). -/
def strContains (s sub : Str) : Bool := (strIndex s sub).isSome

/-- The fixed template text of buildPipelineConfigXML that precedes the
description field. -/
def xmlPart1 : Str :=
  ("<?xml version='1.1' encoding='UTF-8'?>\n<flow-definition plugin=\"workflow-job@1254.v3f669a_b_a_083a_\">\n  <description>").toList

/-- The fixed template text of buildPipelineConfigXML between the description
field and the groovy script field. -/
def xmlPart2 : Str :=
  ("</description>\n  <keepDependencies>false</keepDependencies>\n  <properties/>\n  <definition class=\"org.jenkinsci.plugins.workflow.cps.CpsFlowDefinition\" plugin=\"workflow-cps@2807.v39e1503c779e\">\n    <script><![CDATA[").toList

/-- The fixed template text of buildPipelineConfigXML that follows the groovy
script field. -/
def xmlPart3 : Str :=
  ("]]></script>\n    <sandbox>true</sandbox>\n  </definition>\n  <triggers/>\n  <disabled>false</disabled>\n</flow-definition>").toList

/-- buildPipelineConfigXML of resource_jenkins_pipeline.go: the sprintf
template with the description and the groovy script spliced in. -/
def buildPipelineConfigXML (description groovyScript : Str) : Str :=
  xmlPart1 ++ description ++ xmlPart2 ++ groovyScript ++ xmlPart3

/-- The template text of xmlPart1 before its trailing description open tag. -/
def xmlHead : Str :=
  ("<?xml version='1.1' encoding='UTF-8'?>\n<flow-definition plugin=\"workflow-job@1254.v3f669a_b_a_083a_\">\n  ").toList

/-- The template text of xmlPart2 between the description close tag and the
script open delimiter. -/
def xmlMid : Str :=
  ("\n  <keepDependencies>false</keepDependencies>\n  <properties/>\n  <definition class=\"org.jenkinsci.plugins.workflow.cps.CpsFlowDefinition\" plugin=\"workflow-cps@2807.v39e1503c779e\">\n    ").toList

/-- The template text of xmlPart3 after its leading script close delimiter. -/
def xmlTail : Str :=
  ("\n    <sandbox>true</sandbox>\n  </definition>\n  <triggers/>\n  <disabled>false</disabled>\n</flow-definition>").toList

/-- The scriptStart delimiter of extractGroovyScriptFromXML. -/
def scriptStartTag : Str := ("<script><![CDATA[").toList

/-- The scriptEnd delimiter of extractGroovyScriptFromXML. -/
def scriptEndTag : Str := ("]]></script>").toList

/-- The descStart delimiter of extractDescriptionFromXML. -/
def descStartTag : Str := ("<description>").toList

/-- The descEnd delimiter of extractDescriptionFromXML. -/
def descEndTag : Str := ("</description>").toList

/-- extractGroovyScriptFromXML of resource_jenkins_pipeline.go. -/
def extractGroovyScriptFromXML (xmlConfig : Str) : Except Str Str :=
  let scriptStart : Str := scriptStartTag
  let scriptEnd : Str := scriptEndTag
  match strIndex xmlConfig scriptStart with
  | none => Except.error ("could not find start of Groovy script tag in XML").toList
  | some i =>
    let startIndex := i + scriptStart.length
    match strIndex (xmlConfig.drop startIndex) scriptEnd with
    | none => Except.error ("could not find end of Groovy script tag in XML").toList
    | some endIndex => Except.ok ((xmlConfig.drop startIndex).take endIndex)

/-- extractDescriptionFromXML of resource_jenkins_pipeline.go. -/
def extractDescriptionFromXML (xmlConfig : Str) : Except Str Str :=
  let descStart : Str := descStartTag
  let descEnd : Str := descEndTag
  match strIndex xmlConfig descStart with
  | none => Except.error ("could not find start of description tag in XML").toList
  | some i =>
    let startIndex := i + descStart.length
    match strIndex (xmlConfig.drop startIndex) descEnd with
    | none => Except.error ("could not find end of description tag in XML").toList
    | some endIndex => Except.ok ((xmlConfig.drop startIndex).take endIndex)

/-- The raw data of a jenkins job handle, as used by the provider:
gojenkins Job.Raw.Name, Job.Raw.Description and
Job.Raw.LastCompletedBuild.Number. -/
structure JobRaw where
  name : Str
  description : Str
  lastCompletedBuildNumber : Int
deriving DecidableEq

/-- The raw data of a build handle: gojenkins Build.Raw.Result and
Build.Raw.Duration (cast to int64 by the data source). -/
structure BuildRaw where
  result : Str
  duration : Int
deriving DecidableEq

/-- A remote call issued against the jenkins client, with its arguments,
recorded so the theorems can speak about which endpoints an operation
contacted. -/
inductive RemoteCall where
  | jobExists (name : Str)
  | createJob (configXML : Str) (name : Str)
  | getJob (name : Str)
  | getJobConfig (name : Str)
  | updateJob (name : Str) (configXML : Str)
  | deleteJob (name : Str)
  | getLastCompletedBuild (name : Str)
deriving DecidableEq

/-- The remote collaborator as a response oracle: each field gives the
outcome the jenkins server returns for the corresponding call; errors carry
the Go error message. -/
structure RemoteClient where
  jobExists : Str → Except Str Bool
  createJob : Str → Str → Except Str JobRaw
  getJob : Str → Except Str JobRaw
  getJobConfig : Str → Except Str Str
  updateJob : Str → Str → Except Str JobRaw
  deleteJob : Str → Except Str Bool
  getLastCompletedBuild : Str → Except Str BuildRaw

/-- One diagnostic, as produced by resp.Diagnostics.AddError(summary, detail). -/
structure Diag where
  summary : Str
  detail : Str
deriving DecidableEq

/-- jenkinsPipelineResourceModel: the host-persisted resource record. -/
structure PipelineModel where
  id : Str
  name : Str
  description : Str
  groovyScript : Str
  lastUpdated : Str
deriving DecidableEq

/-- The diagnostic of Create when the existence check itself fails. -/
def diagCreateCheckExists (jobName errMsg : Str) : Diag :=
  { summary := ("Client Error").toList,
    detail := ("Failed to check if job '").toList ++ jobName ++ ("' exists: ").toList ++ errMsg }

/-- The diagnostic of Create when the job already exists. -/
def diagJobAlreadyExists (jobName : Str) : Diag :=
  { summary := ("Job Already Exists").toList,
    detail := ("Jenkins job '").toList ++ jobName ++ ("' already exists. Consider importing it or using a different name.").toList }

/-- The diagnostic of Create when CreateJob fails. -/
def diagCreateJobError (jobName errMsg : Str) : Diag :=
  { summary := ("Jenkins Job Creation Error").toList,
    detail := ("Failed to create Jenkins Pipeline job '").toList ++ jobName ++ ("': ").toList ++ errMsg }

/-- The diagnostic of Create when the read-back GetJob fails. -/
def diagCreateReadBack (jobName errMsg : Str) : Diag :=
  { summary := ("Jenkins Job Read Error").toList,
    detail := ("Failed to read created Jenkins Pipeline job '").toList ++ jobName ++ ("': ").toList ++ errMsg }

/-- The diagnostic of Read when the existence check fails. -/
def diagReadCheckExists (jobName errMsg : Str) : Diag :=
  { summary := ("Client Error").toList,
    detail := ("Failed to check if job '").toList ++ jobName ++ ("' exists during read: ").toList ++ errMsg }

/-- The diagnostic of Read and of the data source when GetJobConfig fails. -/
def diagConfigReadError (jobName errMsg : Str) : Diag :=
  { summary := ("Jenkins Job Config Read Error").toList,
    detail := ("Failed to read Jenkins Pipeline job config for '").toList ++ jobName ++ ("': ").toList ++ errMsg }

/-- The diagnostic attached when extractGroovyScriptFromXML fails. -/
def diagScriptExtract (jobName errMsg : Str) : Diag :=
  { summary := ("Groovy Script Extraction Error").toList,
    detail := ("Failed to extract Groovy script from job '").toList ++ jobName ++ ("' config: ").toList ++ errMsg }

/-- The diagnostic attached when extractDescriptionFromXML fails. -/
def diagDescExtract (jobName errMsg : Str) : Diag :=
  { summary := ("Description Extraction Error").toList,
    detail := ("Failed to extract description from job '").toList ++ jobName ++ ("' config: ").toList ++ errMsg }

/-- The diagnostic of Update when UpdateJob fails. -/
def diagUpdateError (jobName errMsg : Str) : Diag :=
  { summary := ("Jenkins Job Update Error").toList,
    detail := ("Failed to update Jenkins Pipeline job '").toList ++ jobName ++ ("': ").toList ++ errMsg }

/-- The diagnostic of Update when the read-back GetJob fails. -/
def diagUpdateReadBack (jobName errMsg : Str) : Diag :=
  { summary := ("Jenkins Job Read Error After Update").toList,
    detail := ("Failed to read updated Jenkins Pipeline job '").toList ++ jobName ++ ("': ").toList ++ errMsg }

/-- The diagnostic of Delete when the existence check fails. -/
def diagDeleteCheckExists (jobName errMsg : Str) : Diag :=
  { summary := ("Client Error").toList,
    detail := ("Failed to check if job '").toList ++ jobName ++ ("' exists before deletion: ").toList ++ errMsg }

/-- The diagnostic of Delete when DeleteJob fails. -/
def diagDeleteError (jobName errMsg : Str) : Diag :=
  { summary := ("Jenkins Job Deletion Error").toList,
    detail := ("Failed to delete Jenkins Pipeline job '").toList ++ jobName ++ ("': ").toList ++ errMsg }

/-- The diagnostic of the data source when neither id nor name is supplied. -/
def diagMissingIdentifier : Diag :=
  { summary := ("Missing Identifier").toList,
    detail := ("One of 'id' or 'name' must be provided to read the Jenkins Pipeline data source.").toList }

/-- The diagnostic of the data source when GetJob reports the job missing. -/
def diagJobNotFound (jobName errMsg : Str) : Diag :=
  { summary := ("Jenkins Job Not Found").toList,
    detail := ("No Jenkins Pipeline job found with name/ID: '").toList ++ jobName ++ ("'. Error: ").toList ++ errMsg }

/-- The diagnostic of the data source when GetJob fails for another reason. -/
def diagDsReadError (jobName errMsg : Str) : Diag :=
  { summary := ("Jenkins Job Read Error").toList,
    detail := ("Failed to get Jenkins job details for '").toList ++ jobName ++ ("': ").toList ++ errMsg }

/-- The result of a Create invocation: the remote calls issued in order, the
error diagnostics added, and the record written to state (none when the
operation returned without resp.State.Set). -/
structure CreateResult where
  calls : List RemoteCall
  diags : List Diag
  written : Option PipelineModel
deriving DecidableEq

/-- jenkinsPipelineResource.Create: existence check, create, read back,
write the record stamped with now. -/
def createOp (client : RemoteClient) (plan : PipelineModel) (now : Str) : CreateResult :=
  let jobName := plan.name
  let description := plan.description
  let groovyScript := plan.groovyScript
  let configXML := buildPipelineConfigXML description groovyScript
  match client.jobExists jobName with
  | Except.error e =>
    ⟨[RemoteCall.jobExists jobName], [diagCreateCheckExists jobName e], none⟩
  | Except.ok true =>
    ⟨[RemoteCall.jobExists jobName], [diagJobAlreadyExists jobName], none⟩
  | Except.ok false =>
    match client.createJob configXML jobName with
    | Except.error e =>
      ⟨[RemoteCall.jobExists jobName, RemoteCall.createJob configXML jobName],
       [diagCreateJobError jobName e], none⟩
    | Except.ok _ =>
      match client.getJob jobName with
      | Except.error e =>
        ⟨[RemoteCall.jobExists jobName, RemoteCall.createJob configXML jobName,
          RemoteCall.getJob jobName], [diagCreateReadBack jobName e], none⟩
      | Except.ok job =>
        ⟨[RemoteCall.jobExists jobName, RemoteCall.createJob configXML jobName,
          RemoteCall.getJob jobName], [],
         some { id := job.name, name := job.name, description := job.description,
                groovyScript := groovyScript, lastUpdated := now }⟩

/-- The outcome of a Read invocation. -/
inductive ReadOutcome where
  | errored
  | removed
  | written (record : PipelineModel)
deriving DecidableEq

/-- The result of a Read invocation. -/
structure ReadResult where
  calls : List RemoteCall
  diags : List Diag
  outcome : ReadOutcome
deriving DecidableEq

/-- jenkinsPipelineResource.Read: existence check (removing the resource on
absence), config fetch, tolerant extraction of script and description, and
the refreshed record stamped with now. -/
def readOp (client : RemoteClient) (state : PipelineModel) (now : Str) : ReadResult :=
  let jobName := state.id
  match client.jobExists jobName with
  | Except.error e =>
    ⟨[RemoteCall.jobExists jobName], [diagReadCheckExists jobName e], ReadOutcome.errored⟩
  | Except.ok false =>
    ⟨[RemoteCall.jobExists jobName], [], ReadOutcome.removed⟩
  | Except.ok true =>
    match client.getJobConfig jobName with
    | Except.error e =>
      ⟨[RemoteCall.jobExists jobName, RemoteCall.getJobConfig jobName],
       [diagConfigReadError jobName e], ReadOutcome.errored⟩
    | Except.ok configXML =>
      let scriptPart : List Diag × Str :=
        match extractGroovyScriptFromXML configXML with
        | Except.error e => ([diagScriptExtract jobName e], [])
        | Except.ok s => ([], s)
      let descPart : List Diag × Str :=
        match extractDescriptionFromXML configXML with
        | Except.error e => ([diagDescExtract jobName e], [])
        | Except.ok d => ([], d)
      ⟨[RemoteCall.jobExists jobName, RemoteCall.getJobConfig jobName],
       scriptPart.1 ++ descPart.1,
       ReadOutcome.written { id := state.id, name := jobName,
                             description := descPart.2, groovyScript := scriptPart.2,
                             lastUpdated := now }⟩

/-- The result of an Update invocation. -/
structure UpdateResult where
  calls : List RemoteCall
  diags : List Diag
  written : Option PipelineModel
deriving DecidableEq

/-- jenkinsPipelineResource.Update: update keyed by state.id, read back the
description, keep the plan's script, restamp lastUpdated. -/
def updateOp (client : RemoteClient) (plan state : PipelineModel) (now : Str) : UpdateResult :=
  let jobName := state.id
  let newDescription := plan.description
  let newGroovyScript := plan.groovyScript
  let updatedConfigXML := buildPipelineConfigXML newDescription newGroovyScript
  match client.updateJob jobName updatedConfigXML with
  | Except.error e =>
    ⟨[RemoteCall.updateJob jobName updatedConfigXML], [diagUpdateError jobName e], none⟩
  | Except.ok _ =>
    match client.getJob jobName with
    | Except.error e =>
      ⟨[RemoteCall.updateJob jobName updatedConfigXML, RemoteCall.getJob jobName],
       [diagUpdateReadBack jobName e], none⟩
    | Except.ok job =>
      ⟨[RemoteCall.updateJob jobName updatedConfigXML, RemoteCall.getJob jobName], [],
       some { state with description := job.description,
                         groovyScript := newGroovyScript, lastUpdated := now }⟩

/-- The result of a Delete invocation: the operation succeeds (and the host
drops the record) exactly when no error diagnostic was added. -/
structure DeleteResult where
  calls : List RemoteCall
  diags : List Diag
deriving DecidableEq

/-- jenkinsPipelineResource.Delete: existence check first (already-absent is
a no-op success), then the remote delete. -/
def deleteOp (client : RemoteClient) (state : PipelineModel) : DeleteResult :=
  let jobName := state.id
  match client.jobExists jobName with
  | Except.error e =>
    ⟨[RemoteCall.jobExists jobName], [diagDeleteCheckExists jobName e]⟩
  | Except.ok false =>
    ⟨[RemoteCall.jobExists jobName], []⟩
  | Except.ok true =>
    match client.deleteJob jobName with
    | Except.error e =>
      ⟨[RemoteCall.jobExists jobName, RemoteCall.deleteJob jobName],
       [diagDeleteError jobName e]⟩
    | Except.ok _ =>
      ⟨[RemoteCall.jobExists jobName, RemoteCall.deleteJob jobName], []⟩

/-- jenkinsPipelineDataSourceModel: the data source record. -/
structure DataSourceModel where
  id : Str
  name : Str
  description : Str
  groovyScript : Str
  lastBuildStatus : Str
  lastBuildDuration : Int
deriving DecidableEq

/-- The caller-supplied configuration of the data source: id and name are
each either set (some) or null/unknown (none). -/
structure DataSourceConfig where
  id : Option Str
  name : Option Str

/-- The result of a data source Read invocation. -/
structure DataSourceResult where
  calls : List RemoteCall
  diags : List Diag
  written : Option DataSourceModel
deriving DecidableEq

/-- The body of jenkinsPipelineDataSource.Read after the identifier has been
resolved: GetJob (404 or no-such-job errors are a hard NotFound error),
config fetch via the job handle, tolerant extraction, and the last completed
build lookup guarded by Number > 0 (its failure is only logged). -/
def dataSourceLookup (client : RemoteClient) (jobName : Str) : DataSourceResult :=
  match client.getJob jobName with
  | Except.error e =>
    if strContains e ("404").toList || strContains e ("no such job").toList then
      ⟨[RemoteCall.getJob jobName], [diagJobNotFound jobName e], none⟩
    else
      ⟨[RemoteCall.getJob jobName], [diagDsReadError jobName e], none⟩
  | Except.ok job =>
    match client.getJobConfig job.name with
    | Except.error e =>
      ⟨[RemoteCall.getJob jobName, RemoteCall.getJobConfig job.name],
       [diagConfigReadError jobName e], none⟩
    | Except.ok configXML =>
      let scriptPart : List Diag × Str :=
        match extractGroovyScriptFromXML configXML with
        | Except.error e => ([diagScriptExtract jobName e], [])
        | Except.ok s => ([], s)
      let descPart : List Diag × Str :=
        match extractDescriptionFromXML configXML with
        | Except.error e => ([diagDescExtract jobName e], [])
        | Except.ok d => ([], d)
      let buildPart : List RemoteCall × Str × Int :=
        if job.lastCompletedBuildNumber > 0 then
          match client.getLastCompletedBuild job.name with
          | Except.ok lastBuild =>
            ([RemoteCall.getLastCompletedBuild job.name], lastBuild.result, lastBuild.duration)
          | Except.error _ =>
            ([RemoteCall.getLastCompletedBuild job.name], [], 0)
        else ([], [], 0)
      ⟨[RemoteCall.getJob jobName, RemoteCall.getJobConfig job.name] ++ buildPart.1,
       scriptPart.1 ++ descPart.1,
       some { id := job.name, name := job.name, description := descPart.2,
              groovyScript := scriptPart.2, lastBuildStatus := buildPart.2.1,
              lastBuildDuration := buildPart.2.2 }⟩

/-- jenkinsPipelineDataSource.Read: id takes precedence over name as the
lookup key; with neither set the read fails with Missing Identifier before
any remote call. -/
def dataSourceRead (client : RemoteClient) (config : DataSourceConfig) : DataSourceResult :=
  match config.id with
  | some jobName => dataSourceLookup client jobName
  | none =>
    match config.name with
    | some jobName => dataSourceLookup client jobName
    | none => ⟨[], [diagMissingIdentifier], none⟩

/-- The description of the counterexample to the round-trip claim: it
avoids the reserved closing delimiters but holds the script open delimiter. -/
def cexDescription : Str := ("<script><![CDATA[").toList

/-- The script of the counterexample to the round-trip claim. -/
def cexScript : Str := ("echo hi").toList

/-- A job name used by the concrete witnesses. -/
def wName : Str := ("job1").toList

/-- A timestamp used by the concrete witnesses. -/
def wNow : Str := ("2024-01-01T00:00:00Z").toList

/-- A stored record used by the concrete witnesses. -/
def wState : PipelineModel :=
  { id := wName, name := wName, description := ("old description").toList,
    groovyScript := ("old script").toList, lastUpdated := ("t0").toList }

/-- A planned record used by the concrete witnesses. -/
def wPlan : PipelineModel :=
  { id := [], name := wName, description := ("nightly build").toList,
    groovyScript := ("echo hi").toList, lastUpdated := [] }

/-- A remote job handle used by the concrete witnesses. -/
def wJob : JobRaw :=
  { name := wName, description := ("nightly build").toList,
    lastCompletedBuildNumber := 0 }

/-- A configuration document whose description tag is well-formed but whose
script section is absent, used by the partial-decode witnesses. -/
def wBadConfig : Str := ("<description>hello</description>").toList

/-- A client whose job exists and whose configuration document is the
malformed wBadConfig. -/
def wClientPartial : RemoteClient :=
  { jobExists := fun _ => Except.ok true,
    createJob := fun _ _ => Except.error ("unused").toList,
    getJob := fun _ => Except.ok wJob,
    getJobConfig := fun _ => Except.ok wBadConfig,
    updateJob := fun _ _ => Except.error ("unused").toList,
    deleteJob := fun _ => Except.error ("unused").toList,
    getLastCompletedBuild := fun _ => Except.error ("unused").toList }

/-- A client on which the looked-up job is absent. -/
def wClientAbsent : RemoteClient :=
  { jobExists := fun _ => Except.ok false,
    createJob := fun _ _ => Except.error ("unused").toList,
    getJob := fun _ => Except.error ("404 job not found").toList,
    getJobConfig := fun _ => Except.error ("unused").toList,
    updateJob := fun _ _ => Except.error ("unused").toList,
    deleteJob := fun _ => Except.error ("unused").toList,
    getLastCompletedBuild := fun _ => Except.error ("unused").toList }

/-- A client on which the job exists and every mutation succeeds. -/
def wClientExisting : RemoteClient :=
  { jobExists := fun _ => Except.ok true,
    createJob := fun _ _ => Except.ok wJob,
    getJob := fun _ => Except.ok wJob,
    getJobConfig := fun _ => Except.error ("unused").toList,
    updateJob := fun _ _ => Except.ok wJob,
    deleteJob := fun _ => Except.ok true,
    getLastCompletedBuild := fun _ => Except.error ("unused").toList }

/-- A client on which the job exists but the delete endpoint fails. -/
def wClientDeleteFails : RemoteClient :=
  { jobExists := fun _ => Except.ok true,
    createJob := fun _ _ => Except.error ("unused").toList,
    getJob := fun _ => Except.ok wJob,
    getJobConfig := fun _ => Except.error ("unused").toList,
    updateJob := fun _ _ => Except.error ("unused").toList,
    deleteJob := fun _ => Except.error ("500 server error").toList,
    getLastCompletedBuild := fun _ => Except.error ("unused").toList }

/-- A client every call against which fails with a transport error. -/
def wClientDown : RemoteClient :=
  { jobExists := fun _ => Except.error ("connection refused").toList,
    createJob := fun _ _ => Except.error ("connection refused").toList,
    getJob := fun _ => Except.error ("connection refused").toList,
    getJobConfig := fun _ => Except.error ("connection refused").toList,
    updateJob := fun _ _ => Except.error ("connection refused").toList,
    deleteJob := fun _ => Except.error ("connection refused").toList,
    getLastCompletedBuild := fun _ => Except.error ("connection refused").toList }

/-- strIndex returns i when sub occurs at i and at no smaller index. -/
theorem strIndex_of_first (sub : Str) (i : Nat) :
    ∀ s : Str, sub <+: s.drop i → (∀ j, j < i → ¬ sub <+: s.drop j) →
      strIndex s sub = some i := by
  induction i with
  | zero =>
    intro s hocc _
    rw [strIndex.eq_def, if_pos (List.isPrefixOf_iff_prefix.mpr (by simpa using hocc))]
  | succ i ih =>
    intro s hocc hbef
    have hnot : ¬ sub.isPrefixOf s = true := by
      rw [List.isPrefixOf_iff_prefix]
      exact fun h => hbef 0 (Nat.succ_pos i) (by simpa using h)
    cases s with
    | nil =>
      exfalso
      have hnil : sub = [] := by simpa using hocc
      exact hbef 0 (Nat.succ_pos i) (by simp [hnil])
    | cons c t =>
      have ht := ih t (by simpa using hocc) (fun j hj => by
        simpa using hbef (j + 1) (Nat.succ_lt_succ hj))
      rw [strIndex.eq_def, if_neg hnot]
      simp [ht]

/-- A prefix of an append that fits inside the first part is a prefix of it. -/
theorem prefix_of_append_of_le (sub x y : Str) (h : sub <+: x ++ y)
    (hle : sub.length ≤ x.length) : sub <+: x := by
  rw [List.prefix_iff_eq_take] at h ⊢
  rwa [List.take_append_of_le_length hle] at h

/-- An occurrence of sub at index j lies inside the first n characters
whenever j + sub.length ≤ n. -/
theorem occ_infix_take_of_le (sub s : Str) (j n : Nat) (h : sub <+: s.drop j)
    (hle : j + sub.length ≤ n) : sub <:+: s.take n := by
  obtain ⟨r, hr⟩ := h
  have hj : j + (n - j) = n := by omega
  have h5 : sub.take (n - j) = sub := List.take_of_length_le (by omega)
  rw [← hj, List.take_add, ← hr, List.take_append_eq_append_take, h5]
  exact List.infix_append' _ _ _

/-- When sub cannot occur inside the first a.length + sub.length - 1
characters, its first occurrence in a ++ sub ++ t is at a.length exactly. -/
theorem strIndex_append_self (sub a t : Str)
    (h : ¬ sub <:+: (a ++ sub.take (sub.length - 1))) :
    strIndex (a ++ (sub ++ t)) sub = some a.length := by
  rcases eq_or_ne sub [] with rfl | hne
  · exact absurd List.nil_infix h
  have hpos : 0 < sub.length := List.length_pos.mpr hne
  apply strIndex_of_first
  · rw [List.drop_left]
    exact List.prefix_append _ _
  · intro j hj hpre
    apply h
    have h3 : (a ++ (sub ++ t)).take (a.length + (sub.length - 1)) =
        a ++ sub.take (sub.length - 1) := by
      rw [List.take_append]
      congr 1
      exact List.take_append_of_le_length (by omega)
    have h4 : sub <:+: (a ++ (sub ++ t)).take (a.length + (sub.length - 1)) :=
      occ_infix_take_of_le _ _ _ _ hpre (by omega)
    rwa [h3] at h4

/-- An infix of an append is an infix of one part, or straddles the
boundary: a nonempty proper head of it ends the first part while the
matching tail starts the second. -/
theorem infix_append_cases (sub x y : Str) (h : sub <:+: x ++ y) :
    sub <:+: x ∨ sub <:+: y ∨
      ∃ p, 0 < p ∧ p < sub.length ∧ sub.take p <:+ x ∧ sub.drop p <+: y := by
  obtain ⟨u, v, huv⟩ := h
  have hocc : sub <+: (x ++ y).drop u.length := by
    rw [← huv, List.append_assoc, List.drop_left]
    exact List.prefix_append _ _
  by_cases hA : u.length + sub.length ≤ x.length
  · left
    have h1 : sub <+: x.drop u.length ++ y := by
      rwa [List.drop_append_of_le_length (by omega)] at hocc
    have h2 : sub <+: x.drop u.length :=
      prefix_of_append_of_le _ _ _ h1 (by rw [List.length_drop]; omega)
    exact h2.isInfix.trans (List.drop_suffix _ _).isInfix
  · by_cases hB : x.length ≤ u.length
    · right; left
      rw [List.drop_append_eq_append_drop, List.drop_eq_nil_of_le hB,
        List.nil_append] at hocc
      exact hocc.isInfix.trans (List.drop_suffix _ _).isInfix
    · right; right
      refine ⟨x.length - u.length, by omega, by omega, ?_, ?_⟩
      · have hx := congrArg (List.take x.length) huv
        rw [List.take_left] at hx
        rw [List.append_assoc] at hx
        have hlen : x.length = u.length + (x.length - u.length) := by omega
        rw [hlen, List.take_append,
          List.take_append_of_le_length (by omega)] at hx
        exact ⟨u, hx⟩
      · have hy := congrArg (List.drop x.length) huv
        rw [List.drop_left] at hy
        rw [List.append_assoc] at hy
        have hlen : x.length = u.length + (x.length - u.length) := by omega
        rw [hlen, List.drop_append,
          List.drop_append_of_le_length (by omega)] at hy
        exact ⟨v, hy⟩

/-- No occurrence of sub in d ++ y when d and y each hold none and no
nonempty proper tail of sub starts y. -/
theorem not_infix_append_of_drop (sub d y : Str)
    (hd : ¬ sub <:+: d) (hy : ¬ sub <:+: y)
    (hspan : ∀ p, p < sub.length → 0 < p → ¬ sub.drop p <+: y) :
    ¬ sub <:+: d ++ y := by
  intro h
  rcases infix_append_cases sub d y h with h1 | h1 | ⟨p, hp0, hp1, _, hpre⟩
  · exact hd h1
  · exact hy h1
  · exact hspan p hp1 hp0 hpre

/-- No occurrence of sub in x ++ y when x and y each hold none and no
nonempty proper head of sub ends x. -/
theorem not_infix_append_of_take (sub x y : Str)
    (hx : ¬ sub <:+: x) (hy : ¬ sub <:+: y)
    (hspan : ∀ p, p < sub.length → 0 < p → ¬ sub.take p <:+ x) :
    ¬ sub <:+: x ++ y := by
  intro h
  rcases infix_append_cases sub x y h with h1 | h1 | ⟨p, hp0, hp1, hsuf, _⟩
  · exact hx h1
  · exact hy h1
  · exact hspan p hp1 hp0 hsuf

/-- xmlPart1 ends with the description open tag. -/
theorem xmlPart1_eq : xmlPart1 = xmlHead ++ descStartTag := by decide

/-- xmlPart2 is the description close tag, boilerplate, and the script open
delimiter. -/
theorem xmlPart2_eq : xmlPart2 = descEndTag ++ (xmlMid ++ scriptStartTag) := by decide

/-- xmlPart3 starts with the script close delimiter. -/
theorem xmlPart3_eq : xmlPart3 = scriptEndTag ++ xmlTail := by decide

/-- Description extraction recovers the description whenever it avoids the
closing delimiter (regardless of the script). -/
theorem extractDescription_roundtrip (d g : Str) (hd : ¬ descEndTag <:+: d) :
    extractDescriptionFromXML (buildPipelineConfigXML d g) = Except.ok d := by
  have hdoc : buildPipelineConfigXML d g =
      xmlHead ++ (descStartTag ++ (d ++ (descEndTag ++
        (xmlMid ++ (scriptStartTag ++ (g ++ (scriptEndTag ++ xmlTail))))))) := by
    simp only [buildPipelineConfigXML, xmlPart1_eq, xmlPart2_eq, xmlPart3_eq,
      List.append_assoc]
  have h1 : strIndex (buildPipelineConfigXML d g) descStartTag = some xmlHead.length := by
    rw [hdoc]
    exact strIndex_append_self _ _ _ (by decide)
  have h2 : (buildPipelineConfigXML d g).drop (xmlHead.length + descStartTag.length) =
      d ++ (descEndTag ++ (xmlMid ++ (scriptStartTag ++ (g ++ (scriptEndTag ++ xmlTail))))) := by
    rw [hdoc, List.drop_append, List.drop_left]
  have h3 : strIndex (d ++ (descEndTag ++ (xmlMid ++ (scriptStartTag ++
      (g ++ (scriptEndTag ++ xmlTail)))))) descEndTag = some d.length := by
    apply strIndex_append_self
    apply not_infix_append_of_drop
    · exact hd
    · decide
    · decide
  simp only [extractDescriptionFromXML, h1, h2, h3, List.take_left]

/-- Script extraction recovers the script whenever the script avoids the
closing delimiter and the description avoids the script open delimiter. -/
theorem extractGroovyScript_roundtrip (d g : Str)
    (hg : ¬ scriptEndTag <:+: g) (hds : ¬ scriptStartTag <:+: d) :
    extractGroovyScriptFromXML (buildPipelineConfigXML d g) = Except.ok g := by
  have hdoc : buildPipelineConfigXML d g =
      (xmlPart1 ++ (d ++ (descEndTag ++ xmlMid))) ++
        (scriptStartTag ++ (g ++ (scriptEndTag ++ xmlTail))) := by
    simp only [buildPipelineConfigXML, xmlPart2_eq, xmlPart3_eq, List.append_assoc]
  have hnot : ¬ scriptStartTag <:+:
      ((xmlPart1 ++ (d ++ (descEndTag ++ xmlMid))) ++
        scriptStartTag.take (scriptStartTag.length - 1)) := by
    have hre : (xmlPart1 ++ (d ++ (descEndTag ++ xmlMid))) ++
        scriptStartTag.take (scriptStartTag.length - 1) =
        xmlPart1 ++ (d ++ ((descEndTag ++ xmlMid) ++
          scriptStartTag.take (scriptStartTag.length - 1))) := by
      simp [List.append_assoc]
    rw [hre]
    apply not_infix_append_of_take
    · decide
    · apply not_infix_append_of_drop
      · exact hds
      · decide
      · decide
    · decide
  have h1 : strIndex (buildPipelineConfigXML d g) scriptStartTag =
      some (xmlPart1 ++ (d ++ (descEndTag ++ xmlMid))).length := by
    rw [hdoc]
    exact strIndex_append_self _ _ _ hnot
  have h2 : (buildPipelineConfigXML d g).drop
      ((xmlPart1 ++ (d ++ (descEndTag ++ xmlMid))).length + scriptStartTag.length) =
      g ++ (scriptEndTag ++ xmlTail) := by
    rw [hdoc, List.drop_append, List.drop_left]
  have h3 : strIndex (g ++ (scriptEndTag ++ xmlTail)) scriptEndTag = some g.length := by
    apply strIndex_append_self
    apply not_infix_append_of_drop
    · exact hg
    · decide
    · decide
  simp only [extractGroovyScriptFromXML, h1, h2, h3, List.take_left]

/-- C1 counterexample: a description that avoids '</description>' and a
script that avoids ']]></script>' on which decoding the encoded document
does not return the original fields — the description holds the script open
delimiter, so script extraction starts inside the description. -/
theorem claim1_roundtrip_counterexample :
    ¬ scriptEndTag <:+: cexScript ∧ ¬ descEndTag <:+: cexDescription ∧
      ¬ (extractGroovyScriptFromXML (buildPipelineConfigXML cexDescription cexScript) =
           Except.ok cexScript ∧
         extractDescriptionFromXML (buildPipelineConfigXML cexDescription cexScript) =
           Except.ok cexDescription) := by
  refine ⟨by decide, by decide, fun h => ?_⟩
  exact absurd h.1 (by decide)

/-- C1 (amended): when additionally the description does not contain the
script open delimiter '<script><![CDATA[', decoding the document produced
by buildPipelineConfigXML returns exactly the original script and
description. -/
theorem claim1_roundtrip (d g : Str)
    (hg : ¬ scriptEndTag <:+: g) (hd : ¬ descEndTag <:+: d)
    (hds : ¬ scriptStartTag <:+: d) :
    extractGroovyScriptFromXML (buildPipelineConfigXML d g) = Except.ok g ∧
    extractDescriptionFromXML (buildPipelineConfigXML d g) = Except.ok d :=
  ⟨extractGroovyScript_roundtrip d g hg hds, extractDescription_roundtrip d g hd⟩

/-- C1 witness: the spec's concrete scenario round-trips. -/
theorem claim1_roundtrip_witness :
    extractGroovyScriptFromXML
        (buildPipelineConfigXML ("nightly build").toList ("echo hi").toList) =
      Except.ok ("echo hi").toList ∧
    extractDescriptionFromXML
        (buildPipelineConfigXML ("nightly build").toList ("echo hi").toList) =
      Except.ok ("nightly build").toList :=
  claim1_roundtrip ("nightly build").toList ("echo hi").toList
    (by decide) (by decide) (by decide)

/-- C3: a Read whose existence check reports the job gone removes the
resource from state, adds no diagnostic, and issues no further remote
call. -/
theorem claim3_read_drift_removed (c : RemoteClient) (st : PipelineModel)
    (now : Str) (h : c.jobExists st.id = Except.ok false) :
    readOp c st now = ⟨[RemoteCall.jobExists st.id], [], ReadOutcome.removed⟩ := by
  simp [readOp, h]

/-- C3 witness. -/
theorem claim3_read_drift_removed_witness :
    readOp wClientAbsent wState wNow =
      ⟨[RemoteCall.jobExists wState.id], [], ReadOutcome.removed⟩ :=
  claim3_read_drift_removed wClientAbsent wState wNow rfl

/-- C5: a Create whose existence check reports the job already present
fails with the Job Already Exists diagnostic, writes no record, and never
contacts the create endpoint. -/
theorem claim5_create_already_exists (c : RemoteClient) (plan : PipelineModel)
    (now : Str) (h : c.jobExists plan.name = Except.ok true) :
    createOp c plan now =
      ⟨[RemoteCall.jobExists plan.name], [diagJobAlreadyExists plan.name], none⟩ ∧
    (∀ xml n2, RemoteCall.createJob xml n2 ∉ (createOp c plan now).calls) := by
  have h1 : createOp c plan now =
      ⟨[RemoteCall.jobExists plan.name], [diagJobAlreadyExists plan.name], none⟩ := by
    simp [createOp, h]
  refine ⟨h1, fun xml n2 => ?_⟩
  rw [h1]
  simp

/-- C5 witness. -/
theorem claim5_create_already_exists_witness :
    createOp wClientExisting wPlan wNow =
      ⟨[RemoteCall.jobExists wPlan.name], [diagJobAlreadyExists wPlan.name], none⟩ ∧
    RemoteCall.createJob (buildPipelineConfigXML wPlan.description wPlan.groovyScript)
        wPlan.name ∉ (createOp wClientExisting wPlan wNow).calls := by
  have h := claim5_create_already_exists wClientExisting wPlan wNow rfl
  exact ⟨h.1, h.2 _ _⟩

/-- C6: Delete on an absent job succeeds without contacting the delete
endpoint; when the job exists the delete is issued and its failure is
surfaced while its success adds no diagnostic. -/
theorem claim6_delete_idempotent (c : RemoteClient) (st : PipelineModel) :
    (c.jobExists st.id = Except.ok false →
      deleteOp c st = ⟨[RemoteCall.jobExists st.id], []⟩) ∧
    (∀ e, c.jobExists st.id = Except.ok true → c.deleteJob st.id = Except.error e →
      deleteOp c st = ⟨[RemoteCall.jobExists st.id, RemoteCall.deleteJob st.id],
                       [diagDeleteError st.id e]⟩) ∧
    (∀ b, c.jobExists st.id = Except.ok true → c.deleteJob st.id = Except.ok b →
      deleteOp c st = ⟨[RemoteCall.jobExists st.id, RemoteCall.deleteJob st.id], []⟩) := by
  refine ⟨fun h => by simp [deleteOp, h], fun e h1 h2 => by simp [deleteOp, h1, h2],
    fun b h1 h2 => by simp [deleteOp, h1, h2]⟩

/-- C6 witness: the three branches at concrete clients. -/
theorem claim6_delete_idempotent_witness :
    deleteOp wClientAbsent wState = ⟨[RemoteCall.jobExists wState.id], []⟩ ∧
    deleteOp wClientDeleteFails wState =
      ⟨[RemoteCall.jobExists wState.id, RemoteCall.deleteJob wState.id],
       [diagDeleteError wState.id ("500 server error").toList]⟩ ∧
    deleteOp wClientExisting wState =
      ⟨[RemoteCall.jobExists wState.id, RemoteCall.deleteJob wState.id], []⟩ :=
  ⟨(claim6_delete_idempotent wClientAbsent wState).1 rfl,
   (claim6_delete_idempotent wClientDeleteFails wState).2.1 _ rfl rfl,
   (claim6_delete_idempotent wClientExisting wState).2.2 true rfl rfl⟩

/-- C7: a data source Read with neither id nor name supplied fails with the
Missing Identifier diagnostic before any remote call: its call list is
empty and no state is written. -/
theorem claim7_datasource_missing_identifier (c : RemoteClient) :
    dataSourceRead c ⟨none, none⟩ = ⟨[], [diagMissingIdentifier], none⟩ := rfl

/-- C2: when the existence check and config fetch succeed but extraction of
the script (resp. the description) fails, Read is not aborted: the failing
field is set to empty, one extraction diagnostic is attached, the other
field is still populated from the document, and the refreshed record with a
restamped lastUpdated is written. -/
theorem claim2_read_partial_decode (c : RemoteClient) (st : PipelineModel)
    (now cfg : Str)
    (h1 : c.jobExists st.id = Except.ok true)
    (h2 : c.getJobConfig st.id = Except.ok cfg) :
    (∀ e d, extractGroovyScriptFromXML cfg = Except.error e →
       extractDescriptionFromXML cfg = Except.ok d →
       readOp c st now =
         ⟨[RemoteCall.jobExists st.id, RemoteCall.getJobConfig st.id],
          [diagScriptExtract st.id e],
          ReadOutcome.written { id := st.id, name := st.id, description := d,
                                groovyScript := [], lastUpdated := now }⟩) ∧
    (∀ e s, extractDescriptionFromXML cfg = Except.error e →
       extractGroovyScriptFromXML cfg = Except.ok s →
       readOp c st now =
         ⟨[RemoteCall.jobExists st.id, RemoteCall.getJobConfig st.id],
          [diagDescExtract st.id e],
          ReadOutcome.written { id := st.id, name := st.id, description := [],
                                groovyScript := s, lastUpdated := now }⟩) := by
  constructor
  · intro e d hse hde
    simp [readOp, h1, h2, hse, hde]
  · intro e s hde hse
    simp [readOp, h1, h2, hse, hde]

/-- C2 witness: a document with a well-formed description tag and no script
section yields a written record with an empty script, the extraction
diagnostic, and the description populated. -/
theorem claim2_read_partial_decode_witness :
    readOp wClientPartial wState wNow =
      ⟨[RemoteCall.jobExists wState.id, RemoteCall.getJobConfig wState.id],
       [diagScriptExtract wState.id
          ("could not find start of Groovy script tag in XML").toList],
       ReadOutcome.written { id := wState.id, name := wState.id,
                             description := ("hello").toList, groovyScript := [],
                             lastUpdated := wNow }⟩ :=
  (claim2_read_partial_decode wClientPartial wState wNow wBadConfig rfl rfl).1
    ("could not find start of Groovy script tag in XML").toList ("hello").toList
    (by decide) (by decide)

/-- C8: Update looks the job up by the stored state's id, never the plan's
name; on success the written record keeps the state's id and name, takes
the description read back from the server, takes the plan's script as
given, and restamps lastUpdated. -/
theorem claim8_update_uses_state_id (c : RemoteClient) (plan st : PipelineModel)
    (now : Str) (j job : JobRaw)
    (h1 : c.updateJob st.id
        (buildPipelineConfigXML plan.description plan.groovyScript) = Except.ok j)
    (h2 : c.getJob st.id = Except.ok job) :
    updateOp c plan st now =
      ⟨[RemoteCall.updateJob st.id
          (buildPipelineConfigXML plan.description plan.groovyScript),
        RemoteCall.getJob st.id], [],
       some { id := st.id, name := st.name, description := job.description,
              groovyScript := plan.groovyScript, lastUpdated := now }⟩ ∧
    (∀ otherName otherId : Str,
      updateOp c { plan with name := otherName, id := otherId } st now =
        updateOp c plan st now) := by
  constructor
  · simp [updateOp, h1, h2]
  · intro otherName otherId
    rfl

/-- C8 witness. -/
theorem claim8_update_uses_state_id_witness :
    updateOp wClientExisting wPlan wState wNow =
      ⟨[RemoteCall.updateJob wState.id
          (buildPipelineConfigXML wPlan.description wPlan.groovyScript),
        RemoteCall.getJob wState.id], [],
       some { id := wState.id, name := wState.name, description := wJob.description,
              groovyScript := wPlan.groovyScript, lastUpdated := wNow }⟩ :=
  (claim8_update_uses_state_id wClientExisting wPlan wState wNow wJob wJob rfl rfl).1

/-- C4: a data source Read of a missing job (GetJob fails with a 404 or
no-such-job error) is a hard error: the Job Not Found diagnostic is added
and no state is written, in contrast to the resource Read which removes the
record without any diagnostic for the same missing-object condition. -/
theorem claim4_datasource_not_found (c : RemoteClient) (n e : Str)
    (h : c.getJob n = Except.error e)
    (h404 : strContains e ("404").toList = true ∨
            strContains e ("no such job").toList = true) :
    dataSourceRead c ⟨none, some n⟩ =
      ⟨[RemoteCall.getJob n], [diagJobNotFound n e], none⟩ ∧
    (∀ c2 st now, c2.jobExists st.id = Except.ok false →
      readOp c2 st now = ⟨[RemoteCall.jobExists st.id], [], ReadOutcome.removed⟩) := by
  constructor
  · show dataSourceLookup c n = _
    rcases h404 with h4 | h4 <;>
      (simp at h4; simp [dataSourceLookup, h, h4])
  · intro c2 st now h2
    simp [readOp, h2]

/-- C4 witness. -/
theorem claim4_datasource_not_found_witness :
    dataSourceRead wClientAbsent ⟨none, some wName⟩ =
      ⟨[RemoteCall.getJob wName],
       [diagJobNotFound wName ("404 job not found").toList], none⟩ ∧
    readOp wClientAbsent wState wNow =
      ⟨[RemoteCall.jobExists wState.id], [], ReadOutcome.removed⟩ := by
  have h := claim4_datasource_not_found wClientAbsent wName
    ("404 job not found").toList rfl (Or.inl (by decide))
  exact ⟨h.1, h.2 wClientAbsent wState wNow rfl⟩

/-- C9: a record is written only after every required remote call of the
operation succeeded, and any required remote call failing aborts the
operation with a diagnostic and no written record. -/
theorem claim9_no_partial_write (c : RemoteClient) (plan st : PipelineModel)
    (now : Str) :
    (∀ r, (createOp c plan now).written = some r →
      c.jobExists plan.name = Except.ok false ∧
      (∃ j, c.createJob (buildPipelineConfigXML plan.description plan.groovyScript)
          plan.name = Except.ok j) ∧
      (∃ job, c.getJob plan.name = Except.ok job)) ∧
    (∀ e, c.jobExists plan.name = Except.error e →
      (createOp c plan now).written = none ∧ (createOp c plan now).diags ≠ []) ∧
    (∀ e, c.createJob (buildPipelineConfigXML plan.description plan.groovyScript)
        plan.name = Except.error e →
      (createOp c plan now).written = none ∧ (createOp c plan now).diags ≠ []) ∧
    (∀ e, c.getJob plan.name = Except.error e →
      (createOp c plan now).written = none ∧ (createOp c plan now).diags ≠ []) ∧
    (∀ m, (readOp c st now).outcome = ReadOutcome.written m →
      c.jobExists st.id = Except.ok true ∧
      (∃ cfg, c.getJobConfig st.id = Except.ok cfg)) ∧
    (∀ e, c.jobExists st.id = Except.error e →
      (readOp c st now).outcome = ReadOutcome.errored ∧ (readOp c st now).diags ≠ []) ∧
    (∀ e, c.jobExists st.id = Except.ok true → c.getJobConfig st.id = Except.error e →
      (readOp c st now).outcome = ReadOutcome.errored ∧ (readOp c st now).diags ≠ []) ∧
    (∀ r, (updateOp c plan st now).written = some r →
      (∃ j, c.updateJob st.id
          (buildPipelineConfigXML plan.description plan.groovyScript) = Except.ok j) ∧
      (∃ job, c.getJob st.id = Except.ok job)) ∧
    (∀ e, c.updateJob st.id
        (buildPipelineConfigXML plan.description plan.groovyScript) = Except.error e →
      (updateOp c plan st now).written = none ∧ (updateOp c plan st now).diags ≠ []) ∧
    (∀ e, c.getJob st.id = Except.error e →
      (updateOp c plan st now).written = none ∧ (updateOp c plan st now).diags ≠ []) ∧
    (∀ e, c.jobExists st.id = Except.error e → (deleteOp c st).diags ≠ []) ∧
    (∀ e, c.jobExists st.id = Except.ok true → c.deleteJob st.id = Except.error e →
      (deleteOp c st).diags ≠ []) := by
  refine ⟨?_, ?_, ?_, ?_, ?_, ?_, ?_, ?_, ?_, ?_, ?_, ?_⟩
  · intro r hr
    rcases hje : c.jobExists plan.name with e | b
    · simp [createOp, hje] at hr
    · cases b
      · rcases hcj : c.createJob (buildPipelineConfigXML plan.description plan.groovyScript)
            plan.name with e | j
        · simp [createOp, hje, hcj] at hr
        · rcases hgj : c.getJob plan.name with e | job
          · simp [createOp, hje, hcj, hgj] at hr
          · exact ⟨rfl, ⟨j, rfl⟩, ⟨job, rfl⟩⟩
      · simp [createOp, hje] at hr
  · intro e he
    simp [createOp, he]
  · intro e he
    rcases hje : c.jobExists plan.name with e2 | b
    · simp [createOp, hje]
    · cases b
      · simp [createOp, hje, he]
      · simp [createOp, hje]
  · intro e he
    rcases hje : c.jobExists plan.name with e2 | b
    · simp [createOp, hje]
    · cases b
      · rcases hcj : c.createJob (buildPipelineConfigXML plan.description plan.groovyScript)
            plan.name with e2 | j
        · simp [createOp, hje, hcj]
        · simp [createOp, hje, hcj, he]
      · simp [createOp, hje]
  · intro m hm
    rcases hje : c.jobExists st.id with e | b
    · simp [readOp, hje] at hm
    · cases b
      · simp [readOp, hje] at hm
      · rcases hgc : c.getJobConfig st.id with e | cfg
        · simp [readOp, hje, hgc] at hm
        · exact ⟨rfl, ⟨cfg, rfl⟩⟩
  · intro e he
    simp [readOp, he]
  · intro e h1 h2
    simp [readOp, h1, h2]
  · intro r hr
    rcases huj : c.updateJob st.id
        (buildPipelineConfigXML plan.description plan.groovyScript) with e | j
    · simp [updateOp, huj] at hr
    · rcases hgj : c.getJob st.id with e | job
      · simp [updateOp, huj, hgj] at hr
      · exact ⟨⟨j, rfl⟩, ⟨job, rfl⟩⟩
  · intro e he
    simp [updateOp, he]
  · intro e he
    rcases huj : c.updateJob st.id
        (buildPipelineConfigXML plan.description plan.groovyScript) with e2 | j
    · simp [updateOp, huj]
    · simp [updateOp, huj, he]
  · intro e he
    simp [deleteOp, he]
  · intro e h1 h2
    simp [deleteOp, h1, h2]

/-- C9 witness: against a client whose calls all fail, no operation writes
and each aborts with a diagnostic. -/
theorem claim9_no_partial_write_witness :
    ((createOp wClientDown wPlan wNow).written = none ∧
     (createOp wClientDown wPlan wNow).diags ≠ []) ∧
    ((readOp wClientDown wState wNow).outcome = ReadOutcome.errored ∧
     (readOp wClientDown wState wNow).diags ≠ []) ∧
    ((updateOp wClientDown wPlan wState wNow).written = none ∧
     (updateOp wClientDown wPlan wState wNow).diags ≠ []) ∧
    (deleteOp wClientDown wState).diags ≠ [] := by
  have h := claim9_no_partial_write wClientDown wPlan wState wNow
  exact ⟨h.2.1 ("connection refused").toList rfl,
    h.2.2.2.2.2.1 ("connection refused").toList rfl,
    h.2.2.2.2.2.2.2.2.1 ("connection refused").toList rfl,
    h.2.2.2.2.2.2.2.2.2.2.1 ("connection refused").toList rfl⟩

/-- C10: when both id and name are supplied the data source raises no
Missing Identifier error and uses id as the lookup key (the result does not
depend on the name input, and the first remote call is GetJob on the id);
on success both the id and name outputs equal the server-reported job
name. -/
theorem claim10_datasource_id_precedence (c : RemoteClient) (i : Str) :
    (∀ nm nm2 : Option Str,
      dataSourceRead c ⟨some i, nm⟩ = dataSourceRead c ⟨some i, nm2⟩) ∧
    (∀ nm, diagMissingIdentifier ∉ (dataSourceRead c ⟨some i, some nm⟩).diags) ∧
    (∀ nm, (dataSourceRead c ⟨some i, some nm⟩).calls.head? =
      some (RemoteCall.getJob i)) ∧
    (∀ job, c.getJob i = Except.ok job → ∀ nm m,
      (dataSourceRead c ⟨some i, some nm⟩).written = some m →
      m.id = job.name ∧ m.name = job.name) := by
  have hlook : ∀ nm : Option Str, dataSourceRead c ⟨some i, nm⟩ = dataSourceLookup c i :=
    fun nm => rfl
  refine ⟨fun nm nm2 => rfl, ?_, ?_, ?_⟩
  · intro nm
    rw [hlook]
    unfold dataSourceLookup
    rcases hgj : c.getJob i with e | job
    · dsimp only
      split
      · simp [diagMissingIdentifier, diagJobNotFound]
      · simp [diagMissingIdentifier, diagDsReadError]
    · rcases hgc : c.getJobConfig job.name with e | cfg
      · simp [hgj, hgc, diagMissingIdentifier, diagConfigReadError]
      · rcases hes : extractGroovyScriptFromXML cfg with e1 | s1 <;>
          rcases hed : extractDescriptionFromXML cfg with e2 | s2 <;>
            simp [hgj, hgc, hes, hed, diagMissingIdentifier, diagScriptExtract,
              diagDescExtract]
  · intro nm
    rw [hlook]
    unfold dataSourceLookup
    rcases hgj : c.getJob i with e | job
    · dsimp only
      split <;> rfl
    · rcases hgc : c.getJobConfig job.name with e | cfg <;> simp [hgj, hgc]
  · intro job hgj nm m hm
    rw [hlook] at hm
    unfold dataSourceLookup at hm
    simp only [hgj] at hm
    rcases hgc : c.getJobConfig job.name with e | cfg
    · simp [hgc] at hm
    · simp only [hgc, Option.some.injEq] at hm
      subst hm
      exact ⟨rfl, rfl⟩

/-- C10 witness: with both id and name supplied and the job present, the
outputs carry the server-reported name. -/
theorem claim10_datasource_id_precedence_witness :
    dataSourceRead wClientExisting ⟨some wName, some ("othername").toList⟩ =
      dataSourceRead wClientExisting ⟨some wName, none⟩ ∧
    diagMissingIdentifier ∉
      (dataSourceRead wClientExisting ⟨some wName, some ("othername").toList⟩).diags ∧
    (dataSourceRead wClientExisting ⟨some wName, some ("othername").toList⟩).calls.head? =
      some (RemoteCall.getJob wName) := by
  have h := claim10_datasource_id_precedence wClientExisting wName
  exact ⟨h.1 (some ("othername").toList) none, h.2.1 ("othername").toList,
    h.2.2.1 ("othername").toList⟩
